import Mathlib

/-!
Shallow embedding of the lehnert-db (`ldb`) schema layer: identifier
generation and validation, the field-type catalog with per-variant value
validation, column-definition derivation, and the collection snapshot
(Forward/Clone) and diff (SaveCollection) machinery over an explicit heap
of Field/Collection objects.

Modelling conventions:
* Go `any` input values are `Option Value` (`none` is Go `nil`); Go
  `(value, error)` returns become `Except String (Option Value)`.
* Go runtime panics (nil pointer dereferences) are modelled as
  `Except.error` carrying a panic message, distinguishing them by text.
* Go `int64`/`int` are `Int`; `float64` is `Rat` (no claim exercises
  floating-point rounding); `time.Time` is an `Int` instant, with
  `Before`/`After` as `<`/`>`.
* Impure zero-argument default/limit providers (`func() T`) are modelled
  by the value they return, as `Option T` (`none` = nil function pointer).
* Go standard-library capabilities used by the validators (regexp
  compilation, RFC-3339 parsing/formatting) are passed in as a `GoStd`
  record of functions rather than reimplemented.
-/

namespace Ldb

/-- A runtime value crossing the `any` boundary of the Go validators. -/
inductive Value where
  | str (s : String)
  | int (i : Int)
  | float (q : Rat)
  | bool (b : Bool)
  | time (t : Int)
deriving DecidableEq

/-- Go standard-library capabilities the validators call out to.
`regexpValid p` models `regexp.MatchString p s` returning a nil error
(the source discards the boolean match result, so only compilability of
the pattern is ever consulted). -/
structure GoStd where
  regexpValid : String → Bool
  parseRFC3339 : String → Option Int
  formatRFC3339 : Int → String

/-- Minimal lowercase hex rendering of a natural number, Go `fmt` verb
`%x` on a non-negative integer (0 renders as "0"). -/
def natToHex (n : Nat) : String :=
  String.mk (Nat.toDigits 16 n)

/-- Go `%x` applied to one byte of a byte slice: always two lowercase
hex digits. -/
def byteToHex (b : Nat) : String :=
  String.mk [Nat.digitChar (b / 16), Nat.digitChar (b % 16)]

/-- `GenerateId` from ids.go. The impure inputs are parameters:
`unixMilli` is `time.Now().UnixMilli()` and `entropy` the 8 bytes
written by `crypto/rand.Read`. The source computes
`timestamp := int64(time.Now().UnixMilli() * 1000)` and returns
`fmt.Sprintf("%x%x", timestamp, entropy)`. -/
def GenerateId (unixMilli : Nat) (entropy : List Nat) : String :=
  natToHex (unixMilli * 1000) ++ String.join (entropy.map byteToHex)

/-- Drop leading characters belonging to the cutset. -/
def trimLeftList (cutset : List Char) : List Char → List Char
  | [] => []
  | c :: rest => if cutset.contains c then trimLeftList cutset rest else c :: rest

/-- Go `strings.Trim`: remove leading and trailing characters that are
members of the cutset (interior characters are kept). -/
def goTrim (s cutset : String) : String :=
  String.mk ((trimLeftList cutset.data ((trimLeftList cutset.data s.data).reverse)).reverse)

/-- `ValidateId` from ids.go: require a string value, of length exactly
31, whose lower-cased form contains only hex digits (checked by trimming
the hex alphabet off both ends and requiring nothing to remain). Error
messages, including the "expcted" typo, are the source's. -/
def ValidateId (value : Option Value) : Except String Unit :=
  match value with
  | some (Value.str s) =>
    if s.length ≠ 31 then Except.error "invalid id, expected string of length 31"
    else
      let t := s.toLower
      if (goTrim t "0123456789abcdef").length ≠ 0 then
        Except.error "invalid id, expcted hex string"
      else Except.ok ()
  | _ => Except.error "invalid id, expected string value"

/-! ## Field type catalog (collection.go)

`FieldType` is the closed variant family `FieldTypeId`, `FieldTypeText`,
`FieldTypeInt`, `FieldTypeFloat`, `FieldTypeBool`, `FieldTypeDateTime`,
`FieldTypeEnum`, `FieldTypeSingleRelation`, each carrying its struct
fields in source order. -/

inductive FieldType where
  | id (nullable primaryKey : Bool) (createDefaultValue : Option String)
  | text (nullable : Bool) (createDefaultValue : Option String)
      (createMaxLength createMinLength : Option Int) (createPattern : Option String)
  | int (nullable : Bool) (createDefaultValue createMinValue createMaxValue : Option Int)
  | float (nullable : Bool) (createDefaultValue createMinValue createMaxValue : Option Rat)
  | bool (nullable : Bool) (createDefaultValue : Option Bool)
  | dateTime (nullable : Bool) (createDefaultValue createMinValue createMaxValue : Option Int)
  | enum (nullable : Bool) (enumValues : List String) (createDefaultValue : Option String)
  | singleRelation (nullable : Bool) (collection : String) (cascadeDelete : Bool)
deriving DecidableEq

/-- `validateNullable` (defined identically in collection.go and
schema.go): a nil value is an error unless the field is nullable. -/
def validateNullable (nullable : Bool) (value : Option Value) : Except String Unit :=
  match value, nullable with
  | none, false => Except.error "invalid value, expected non-null"
  | _, _ => Except.ok ()

/-- `FieldTypeId.ValidateValue`: null is allowed when `Nullable` or
`PrimaryKey` is set; a nil value is returned as-is (the struct's
`CreateDefaultValue` provider is never consulted by the source); a
non-nil value must pass `ValidateId` and is returned unchanged.
`FieldTypeSingleRelation.ValidateValue` delegates here with
`FieldTypeId{Nullable: fieldType.Nullable}`. -/
def FieldTypeIdValidateValue (nullable primaryKey : Bool) (value : Option Value) :
    Except String (Option Value) := do
  validateNullable (nullable || primaryKey) value
  match value with
  | none => Except.ok none
  | some v => do
    ValidateId (some v)
    Except.ok (some v)

/-- `FieldType.ValidateValue` dispatch over the variant family
(collection.go). Each branch transcribes the corresponding
`ValidateValue` method body. -/
def validateValue (std : GoStd) (ft : FieldType) (value : Option Value) :
    Except String (Option Value) :=
  match ft with
  | .id nb pk _ => FieldTypeIdValidateValue nb pk value
  | .text nb cdv cmax cmin cpat => do
    validateNullable nb value
    match value with
    | none =>
      match cdv with
      | some d => Except.ok (some (.str d))
      | none => Except.ok none
    | some (.str s) => do
      (match cmin with
       | some mn =>
         if (s.length : Int) < mn then
           Except.error ("value too short, min length is " ++ toString mn)
         else Except.ok ()
       | none => Except.ok ())
      (match cmax with
       | some mx =>
         if (s.length : Int) > mx then
           Except.error ("value too long, max length is " ++ toString mx)
         else Except.ok ()
       | none => Except.ok ())
      -- the source runs `_, err := regexp.MatchString(pattern, str)` and
      -- tests only `err != nil`: the boolean match result is discarded,
      -- so the branch fails exactly when the pattern does not compile
      (match cpat with
       | some pat =>
         if std.regexpValid pat then Except.ok ()
         else Except.error ("value does not match pattern, pattern is " ++ pat)
       | none => Except.ok ())
      Except.ok (some (.str s))
    | some _ => Except.error "invalid value, expected string"
  | .int nb cdv cmin cmax => do
    validateNullable nb value
    match value with
    | none =>
      match cdv with
      | some d => Except.ok (some (.int d))
      | none => Except.ok none
    | some (.int i) => do
      (match cmin with
       | some mn =>
         if i < mn then Except.error ("value too small, min value is " ++ toString mn)
         else Except.ok ()
       | none => Except.ok ())
      (match cmax with
       | some mx =>
         if i > mx then Except.error ("value too big, max value is " ++ toString mx)
         else Except.ok ()
       | none => Except.ok ())
      Except.ok (some (.int i))
    | some _ => Except.error "invalid value, expected integer"
  | .float nb cdv cmin cmax => do
    validateNullable nb value
    match value with
    | none =>
      match cdv with
      | some d => Except.ok (some (.float d))
      | none => Except.ok none
    | some (.float f) => do
      (match cmin with
       | some mn =>
         if f < mn then Except.error ("value too small, min value is " ++ toString mn)
         else Except.ok ()
       | none => Except.ok ())
      (match cmax with
       | some mx =>
         if f > mx then Except.error ("value too big, max value is " ++ toString mx)
         else Except.ok ()
       | none => Except.ok ())
      Except.ok (some (.float f))
    | some _ => Except.error "invalid value, expected float"
  | .bool nb cdv => do
    validateNullable nb value
    match value with
    | none =>
      match cdv with
      | some d => Except.ok (some (.bool d))
      | none => Except.ok none
    | some (.bool b) => Except.ok (some (.bool b))
    | some _ => Except.error "invalid value, expected bool"
  | .dateTime nb cdv cmin cmax => do
    validateNullable nb value
    match value with
    | none =>
      match cdv with
      | some d => Except.ok (some (.time d))
      | none => Except.ok none
    | some v => do
      let d ← match v with
        | .time t => Except.ok t
        | w =>
          -- `str, _ := value.(string)` yields "" for non-strings
          let s := match w with | .str s => s | _ => ""
          match std.parseRFC3339 s with
          | some t => Except.ok t
          | none => Except.error "invalid value, expected datetime or RFC-3339 datetime string"
      (match cmin with
       | some mn =>
         -- note the source formats `d`, not the min value, into the message
         if d < mn then Except.error ("value too early, min value is " ++ std.formatRFC3339 d)
         else Except.ok ()
       | none => Except.ok ())
      (match cmax with
       | some mx =>
         if d > mx then Except.error ("value too late, max value is " ++ std.formatRFC3339 d)
         else Except.ok ()
       | none => Except.ok ())
      Except.ok (some (.time d))
  | .enum nb vs cdv => do
    -- `defaultValue` starts "" and, when a provider exists, its value is
    -- fetched and membership-checked before anything else
    let defaultValue ← match cdv with
      | some d =>
        if vs.contains d then Except.ok d
        else Except.error "configuration error, invalid default value"
      | none => Except.ok ""
    validateNullable nb value
    match value with
    | none =>
      if defaultValue.length > 0 then Except.ok (some (.str defaultValue))
      else Except.ok none
    | some (.str s) =>
      if vs.contains s then Except.ok (some (.str s))
      else Except.error ("invalid value, expected one of [" ++ String.intercalate ", " vs ++ "]")
    | some _ =>
      Except.error ("invalid value, expected one of [" ++ String.intercalate ", " vs ++ "]")
  | .singleRelation nb _ _ => FieldTypeIdValidateValue nb false value

/-! ## The older duplicate text validator (schema.go)

schema.go carries a second, field-for-field duplicate catalog
(`TextFieldType`, `IntFieldType`, ...) whose constraint configuration is
plain pointers instead of providers. Only `TextFieldType` is needed by
the claims; its min-length branch is transcribed exactly, including the
comparison against `*fieldType.MaxLength` and the dereference of
`MaxLength` while only `MinLength` was nil-checked. -/

structure TextFieldType where
  nullable : Bool
  defaultValue : Option String
  maxLength : Option Int
  minLength : Option Int
  pattern : Option String
deriving DecidableEq

/-- `TextFieldType.ValidateValue` from schema.go. The nil-pointer
dereference reachable when `MinLength` is set but `MaxLength` is not is
modelled as an error carrying the Go panic message. -/
def TextFieldTypeValidateValue (std : GoStd) (ft : TextFieldType) (value : Option Value) :
    Except String (Option Value) := do
  validateNullable ft.nullable value
  match value with
  | none => Except.ok (ft.defaultValue.map Value.str)
  | some (.str s) => do
    (match ft.maxLength with
     | some mx =>
       if (s.length : Int) > mx then
         Except.error ("value too long, max length is " ++ toString mx)
       else Except.ok ()
     | none => Except.ok ())
    -- source: `if fieldType.MinLength != nil && len(str) < *fieldType.MaxLength`
    (match ft.minLength with
     | some mn =>
       match ft.maxLength with
       | none => Except.error "panic: runtime error: invalid memory address or nil pointer dereference"
       | some mx =>
         if (s.length : Int) < mx then
           Except.error ("value too short, min length is " ++ toString mn)
         else Except.ok ()
     | none => Except.ok ())
    (match ft.pattern with
     | some pat =>
       if std.regexpValid pat then Except.ok ()
       else Except.error ("value does not match pattern, pattern is " ++ pat)
     | none => Except.ok ())
    Except.ok (some (.str s))
  | some _ => Except.error "invalid value, expected string"

/-! ## Column definition derivation (adapter_duckdb.go) -/

/-- `withNullConstraint`: append " NULL" or " NOT NULL". -/
def withNullConstraint (sql : String) (nullable : Bool) : String :=
  if nullable then sql ++ " NULL" else sql ++ " NOT NULL"

/-- `columnSQL`: per-variant column definition. The source's `default:
panic` branch is unreachable here because the variant family is closed. -/
def columnSQL (column : String) (fieldType : FieldType) : String :=
  match fieldType with
  | .bool nb _ => withNullConstraint (column ++ " BOOL") nb
  | .dateTime nb _ _ _ => withNullConstraint (column ++ " TIMESTAMP") nb
  | .enum nb _ _ => withNullConstraint (column ++ " TEXT") nb
  | .float nb _ _ _ => withNullConstraint (column ++ " REAL") nb
  | .id nb pk _ =>
    let sql := withNullConstraint (column ++ " TEXT") (nb || pk)
    if pk then sql ++ " PRIMARY KEY" else sql
  | .int nb _ _ _ => withNullConstraint (column ++ " BIGINT") nb
  | .singleRelation nb coll cascade =>
    let sql := withNullConstraint (column ++ " TEXT") nb ++ " REFERENCES " ++ coll ++ "(id)"
    if cascade then sql ++ " ON DELETE CASCADE" else sql
  | .text nb _ _ _ _ => withNullConstraint (column ++ " TEXT") nb

/-! ## Schema objects and the object heap (collection.go)

Go `Field` and `Collection` live on a mutable heap and carry `original`
back-pointers (`*Field` / `*Collection`). Pointers are modelled as
indices into per-type allocation lists. `FieldSchema` wraps exactly one
`FieldType` and `Field.Clone` always allocates a fresh one, so it is
inlined as the `ftype` component; `CollectionSchema`'s field slice is
inlined as the `fields` pointer list (no source code mutates the slice
itself in place, only the pointed-to Field objects). A nil or dangling
pointer dereference is an `Except.error "nil pointer dereference"`. -/

/-- A `Field` object: `original` back-pointer, `Name`, and the
`Schema.Type` it owns. -/
structure Field where
  original : Option Nat
  name : String
  ftype : FieldType
deriving DecidableEq

/-- A `Collection` object: `original` back-pointer, `Name`, and its
`Schema.Fields` pointer list. -/
structure Collection where
  original : Option Nat
  name : String
  fields : List Nat
deriving DecidableEq

/-- The object heap: all allocated Field and Collection objects. -/
structure Heap where
  fieldObjs : List Field
  collObjs : List Collection
deriving DecidableEq

def Heap.getField (h : Heap) (p : Nat) : Option Field := h.fieldObjs[p]?

def Heap.setField (h : Heap) (p : Nat) (f : Field) : Heap :=
  { h with fieldObjs := h.fieldObjs.set p f }

def Heap.allocField (h : Heap) (f : Field) : Heap × Nat :=
  ({ h with fieldObjs := h.fieldObjs ++ [f] }, h.fieldObjs.length)

def Heap.getColl (h : Heap) (p : Nat) : Option Collection := h.collObjs[p]?

def Heap.setColl (h : Heap) (p : Nat) (c : Collection) : Heap :=
  { h with collObjs := h.collObjs.set p c }

def Heap.allocColl (h : Heap) (c : Collection) : Heap × Nat :=
  ({ h with collObjs := h.collObjs ++ [c] }, h.collObjs.length)

/-- `FieldType.Clone`: every variant returns itself; `FieldTypeEnum`
copies its `EnumValues` slice, which under value semantics is the
identity on the list. -/
def FieldTypeClone (ft : FieldType) : FieldType :=
  match ft with
  | .enum nb vs cdv => .enum nb vs cdv
  | other => other

/-- `Field.Clone` (with `FieldSchema.Clone` inlined): a fresh Field with
the same name and a cloned type, and no `original` back-pointer. -/
def FieldClone (f : Field) : Field :=
  { original := none, name := f.name, ftype := FieldTypeClone f.ftype }

/-- `Field.Forward`: `f.original = f.Clone()`. -/
def FieldForward (h : Heap) (p : Nat) : Except String Heap :=
  match h.getField p with
  | none => Except.error "nil pointer dereference"
  | some fd =>
    let hq := h.allocField (FieldClone fd)
    Except.ok (hq.1.setField p { fd with original := some hq.2 })

/-- The allocation loop of `CollectionSchema.Clone`: one fresh clone per
field of the slice. -/
def allocFieldClones (h : Heap) : List Nat → Except String Heap
  | [] => Except.ok h
  | p :: rest =>
    match h.getField p with
    | none => Except.error "nil pointer dereference"
    | some fd => allocFieldClones (h.allocField (FieldClone fd)).1 rest

/-- `CollectionSchema.Clone`: the source copies the struct
(`cloned := s`), builds `clonedFields` with one `field.Clone()` per
entry, and returns the copy WITHOUT ever assigning `clonedFields` to it,
so the returned schema still holds the original `Fields` slice; the
clones become unreachable garbage. Both effects are modelled: the clone
allocations happen, and the original pointer list is returned. -/
def CollectionSchemaClone (h : Heap) (fields : List Nat) : Except String (Heap × List Nat) := do
  let h1 ← allocFieldClones h fields
  Except.ok (h1, fields)

/-- `Collection.Clone`: fresh Collection with the same name, the cloned
schema, and no `original`. -/
def CollectionClone (h : Heap) (c : Collection) : Except String (Heap × Nat) := do
  let hf ← CollectionSchemaClone h c.fields
  let ha := hf.1.allocColl { original := none, name := c.name, fields := hf.2 }
  Except.ok (ha.1, ha.2)

/-- The field loop of `Collection.Forward`. -/
def forwardFields (h : Heap) : List Nat → Except String Heap
  | [] => Except.ok h
  | p :: rest => do
    let h1 ← FieldForward h p
    forwardFields h1 rest

/-- `Collection.Forward`: `c.original = c.Clone()`, then forward every
field of the current schema. -/
def CollectionForward (h : Heap) (p : Nat) : Except String Heap :=
  match h.getColl p with
  | none => Except.error "nil pointer dereference"
  | some c => do
    let hq ← CollectionClone h c
    let h2 := hq.1.setColl p { c with original := some hq.2 }
    forwardFields h2 c.fields

/-! ## The diff (DuckDBTransaction.SaveCollection)

The SQL statements executed against the transaction are collected as a
list of structural operations; each carries exactly the strings the
source interpolates into its `fmt.Sprintf` template. -/

/-- A structural operation, one per executed DDL statement. -/
inductive Op where
  | createTable (table : String) (columns : List String)
  | renameTable (oldName newName : String)
  | dropColumn (table column : String)
  | renameColumn (table oldName newName : String)
  | addColumn (table columnDef : String)
deriving DecidableEq

/-- Effectful filter: `lo.Filter` evaluated left to right, stopping at
the first panic. -/
def exceptFilter (p : α → Except String Bool) : List α → Except String (List α)
  | [] => Except.ok []
  | x :: xs => do
    let b ← p x
    let rest ← exceptFilter p xs
    Except.ok (if b then x :: rest else rest)

/-- Effectful existence check: `lo.Find` evaluated left to right,
short-circuiting at the first match. -/
def exceptAny (p : α → Except String Bool) : List α → Except String Bool
  | [] => Except.ok false
  | x :: xs => do
    let b ← p x
    if b then Except.ok true else exceptAny p xs

/-- Effectful map, left to right. -/
def exceptMapM (f : α → Except String β) : List α → Except String (List β)
  | [] => Except.ok []
  | x :: xs =>
    match f x with
    | Except.error e => Except.error e
    | Except.ok y =>
      match exceptMapM f xs with
      | Except.error e => Except.error e
      | Except.ok ys => Except.ok (y :: ys)

/-- The column definition of the Field object behind a pointer. -/
def fieldColumn (h : Heap) (p : Nat) : Except String String :=
  match h.getField p with
  | none => Except.error "nil pointer dereference"
  | some fd => Except.ok (columnSQL fd.name fd.ftype)

/-- `DuckDBTransaction.SaveCollection`, with the executed SQL collected
as `Op`s. With no baseline: a single CREATE TABLE from the fields in
declared order. Otherwise: optional table rename, then the
`createFields` / `renameFields` / `removeFields` classifications in
source order — the `renameFields` predicate dereferences
`field.original.original.Name` exactly as written — followed by the
DROP, RENAME and ADD statement loops. -/
def SaveCollection (h : Heap) (c : Collection) : Except String (List Op) :=
  match c.original with
  | none =>
    match exceptMapM (fieldColumn h) c.fields with
    | Except.error e => Except.error e
    | Except.ok columns => Except.ok [Op.createTable c.name columns]
  | some op => do
    let origC ← match h.getColl op with
      | none => Except.error "nil pointer dereference"
      | some oc => Except.ok oc
    let renameTableOps := if origC.name ≠ c.name then [Op.renameTable origC.name c.name] else []
    let createFields ← exceptFilter (fun p =>
      match h.getField p with
      | none => Except.error "nil pointer dereference"
      | some fd => Except.ok (fd.original = none)) c.fields
    let renameFields ← exceptFilter (fun p =>
      match h.getField p with
      | none => Except.error "nil pointer dereference"
      | some fd =>
        match fd.original with
        | none => Except.error "nil pointer dereference"
        | some q =>
          match h.getField q with
          | none => Except.error "nil pointer dereference"
          | some fo =>
            match fo.original with
            | none => Except.error "nil pointer dereference"
            | some r =>
              match h.getField r with
              | none => Except.error "nil pointer dereference"
              | some foo => Except.ok (foo.name ≠ fd.name)) c.fields
    -- the `if collection.original != nil` guard around removeFields is
    -- always true in this branch
    let removeFields ← exceptFilter (fun q =>
      match h.getField q with
      | none => Except.error "nil pointer dereference"
      | some ofd => do
        let found ← exceptAny (fun p =>
          match h.getField p with
          | none => Except.error "nil pointer dereference"
          | some fd =>
            match fd.original with
            | none => Except.ok false
            | some r =>
              match h.getField r with
              | none => Except.error "nil pointer dereference"
              | some ro => Except.ok (ro.name = ofd.name)) c.fields
        Except.ok (!found)) origC.fields
    let dropOps ← exceptMapM (fun q =>
      match h.getField q with
      | none => Except.error "nil pointer dereference"
      | some ofd => Except.ok (Op.dropColumn c.name ofd.name)) removeFields
    let renameOps ← exceptMapM (fun p =>
      match h.getField p with
      | none => Except.error "nil pointer dereference"
      | some fd =>
        match fd.original with
        | none => Except.error "nil pointer dereference"
        | some q =>
          match h.getField q with
          | none => Except.error "nil pointer dereference"
          | some fo => Except.ok (Op.renameColumn c.name fo.name fd.name)) renameFields
    let addOps ← exceptMapM (fun p =>
      match h.getField p with
      | none => Except.error "nil pointer dereference"
      | some fd => Except.ok (Op.addColumn c.name (columnSQL fd.name fd.ftype))) createFields
    Except.ok (renameTableOps ++ dropOps ++ renameOps ++ addOps)

/-! ## Concrete scenarios used by the theorems -/

/-- A Go-stdlib model in which every pattern consulted by a validator
compiles (as the well-formed patterns below do). -/
def goStdCompiles : GoStd :=
  { regexpValid := fun _ => true, parseRFC3339 := fun _ => none, formatRFC3339 := fun _ => "" }

/-- A Go-stdlib model in which the consulted pattern fails to compile
(as the malformed pattern "(" does). -/
def goStdMalformed : GoStd :=
  { regexpValid := fun _ => false, parseRFC3339 := fun _ => none, formatRFC3339 := fun _ => "" }

/-- A single non-nullable text field named "a", as field object 0. -/
def fieldA : Field := { original := none, name := "a", ftype := .text false none none none none }

/-- A collection "c" whose schema holds the one field, as collection
object 0. -/
def collC : Collection := { original := none, name := "c", fields := [0] }

/-- The heap holding `fieldA` and `collC`, before any Forward. -/
def heap0 : Heap := { fieldObjs := [fieldA], collObjs := [collC] }

/-- Forward the collection, then immediately run SaveCollection on it
unchanged (the reconciliation of an already-applied schema). -/
def runSaveAfterForward : Except String (List Op) := do
  let h1 ← CollectionForward heap0 0
  match h1.getColl 0 with
  | none => Except.error "nil pointer dereference"
  | some c => SaveCollection h1 c

/-- Forward the collection, mutate the live field's `Name` to "b", then
read back the name of the first field recorded in the collection's
`original` baseline. -/
def runBaselineNameAfterMutation : Except String String := do
  let h1 ← CollectionForward heap0 0
  match h1.getField 0 with
  | none => Except.error "nil pointer dereference"
  | some fd =>
    let h2 := h1.setField 0 { fd with name := "b" }
    match h2.getColl 0 with
    | none => Except.error "nil pointer dereference"
    | some c =>
      match c.original with
      | none => Except.error "nil pointer dereference"
      | some q =>
        match h2.getColl q with
        | none => Except.error "nil pointer dereference"
        | some oc =>
          match oc.fields with
          | [] => Except.error "empty baseline schema"
          | p :: _ =>
            match h2.getField p with
            | none => Except.error "nil pointer dereference"
            | some bf => Except.ok bf.name

/-- Forward the collection, rename the live field from "a" to "b", then
run SaveCollection (the diff that should detect the rename). -/
def runSaveAfterRename : Except String (List Op) := do
  let h1 ← CollectionForward heap0 0
  match h1.getField 0 with
  | none => Except.error "nil pointer dereference"
  | some fd =>
    let h2 := h1.setField 0 { fd with name := "b" }
    match h2.getColl 0 with
    | none => Except.error "nil pointer dereference"
    | some c => SaveCollection h2 c

/-! ## Helper lemmas -/

/-- String append is associative (it is list append on the data). -/
theorem strAppendAssoc : ∀ (a b c : String), a ++ b ++ c = a ++ (b ++ c)
  | ⟨a⟩, ⟨b⟩, ⟨c⟩ => congrArg String.mk (List.append_assoc a b c)

/-- A successful `exceptMapM` yields one output per input, in order. -/
theorem exceptMapM_ok_spec {α β : Type} {f : α → Except String β} :
    ∀ {l : List α} {ys : List β}, exceptMapM f l = Except.ok ys →
      ys.length = l.length ∧
      ∀ (i : Nat) (x : α), l[i]? = some x → ∃ y, ys[i]? = some y ∧ f x = Except.ok y := by
  intro l
  induction l with
  | nil =>
    intro ys h
    simp only [exceptMapM, Except.ok.injEq] at h
    subst h
    exact ⟨rfl, by intro i x hx; simp at hx⟩
  | cons a as ih =>
    intro ys h
    simp only [exceptMapM] at h
    cases hfa : f a with
    | error e => rw [hfa] at h; exact absurd h (by simp)
    | ok y =>
      rw [hfa] at h
      cases hrec : exceptMapM f as with
      | error e => rw [hrec] at h; exact absurd h (by simp)
      | ok ys2 =>
        rw [hrec] at h
        simp only [Except.ok.injEq] at h
        subst h
        obtain ⟨ihlen, ihidx⟩ := ih hrec
        refine ⟨by simp [ihlen], ?_⟩
        intro i x hx
        cases i with
        | zero =>
          simp only [List.getElem?_cons_zero, Option.some.injEq] at hx
          subst hx
          exact ⟨y, by simp, hfa⟩
        | succ n =>
          simp only [List.getElem?_cons_succ] at hx
          obtain ⟨yy, hyy, hfx⟩ := ihidx n x hx
          exact ⟨yy, by simpa using hyy, hfx⟩

/-! ## Claims -/

/-- C1: for a collection with one field, Forward followed by
SaveCollection on the unchanged collection does not produce an empty
operation list: the `renameFields` predicate dereferences
`field.original.original.Name`, and after Forward every field's
`original` is a clone whose own `original` is nil, so the reconciliation
hits a nil pointer dereference instead. -/
theorem forward_then_save_nil_panic :
    runSaveAfterForward = Except.error "nil pointer dereference" := rfl

/-- C2: at the concrete present-day timestamp 1760140800000 ms (and for
every date between 1978 and 2112), `GenerateId` yields 13 hex digits of
timestamp plus 16 hex digits of entropy — 29 characters — while
`ValidateId` requires exactly 31, so a generated id never validates. -/
theorem generateId_fails_validateId :
    (GenerateId 1760140800000 [0, 0, 0, 0, 0, 0, 0, 0]).length = 29 ∧
    ValidateId (some (Value.str (GenerateId 1760140800000 [0, 0, 0, 0, 0, 0, 0, 0]))) =
      Except.error "invalid id, expected string of length 31" := ⟨rfl, rfl⟩

/-- C3: after Forward, mutating the live field's `Name` from "a" to "b"
also changes the field recorded in the collection's `original` baseline
to "b": `CollectionSchema.Clone` never assigns the `clonedFields` it
builds, so the baseline shares the live Field objects instead of being
an independent deep clone. -/
theorem baseline_aliases_live_field :
    runBaselineNameAfterMutation = Except.ok "b" ∧ runBaselineNameAfterMutation ≠ Except.ok "a" :=
  ⟨rfl, fun h => by
    have hb : (Except.ok "b" : Except String String) = Except.ok "a" := h
    exact absurd (Except.ok.inj hb) (by decide)⟩

/-- C4: with a baseline field named "a" and the matched current field
renamed to "b", the diff does not emit RenameColumn("a","b"): the
`renameFields` predicate dereferences the nil
`field.original.original` and the reconciliation fails with a nil
pointer dereference. -/
theorem rename_diff_nil_panic :
    runSaveAfterRename = Except.error "nil pointer dereference" := rfl

/-- C5: a collection whose `original` is nil yields exactly one
CreateTable operation and nothing else, with one type-derived column
definition per schema field, in declared order. -/
theorem saveCollection_createTable (h : Heap) (c : Collection) (cols : List String)
    (hor : c.original = none)
    (hcols : exceptMapM (fieldColumn h) c.fields = Except.ok cols) :
    SaveCollection h c = Except.ok [Op.createTable c.name cols] ∧
    cols.length = c.fields.length ∧
    ∀ (i : Nat) (p : Nat), c.fields[i]? = some p →
      ∃ s, cols[i]? = some s ∧ fieldColumn h p = Except.ok s := by
  obtain ⟨hlen, hidx⟩ := exceptMapM_ok_spec hcols
  refine ⟨?_, hlen, hidx⟩
  obtain ⟨co, cn, cf⟩ := c
  simp only at hor
  subst hor
  simp only [SaveCollection]
  rw [hcols]

/-- Witness for C5 at the concrete one-field collection. -/
theorem saveCollection_createTable_witness :
    SaveCollection heap0 collC = Except.ok [Op.createTable collC.name ["a TEXT NOT NULL"]] ∧
    (["a TEXT NOT NULL"] : List String).length = collC.fields.length ∧
    ∀ (i : Nat) (p : Nat), collC.fields[i]? = some p →
      ∃ s, (["a TEXT NOT NULL"] : List String)[i]? = some s ∧
        fieldColumn heap0 p = Except.ok s :=
  saveCollection_createTable heap0 collC ["a TEXT NOT NULL"] rfl rfl

/-- C6 counterexample: for an Id field with `PrimaryKey` set, the column
definition is "id TEXT NULL PRIMARY KEY", not the claimed
"id TEXT NOT NULL PRIMARY KEY": `columnSQL` passes
`ft.Nullable || ft.PrimaryKey` as the nullable flag to
`withNullConstraint`, which therefore appends " NULL". -/
theorem columnSQL_id_primaryKey_counterexample :
    columnSQL "id" (.id false true none) = "id TEXT NULL PRIMARY KEY" ∧
    columnSQL "id" (.id false true none) ≠ "id TEXT NOT NULL PRIMARY KEY" :=
  ⟨rfl, by decide⟩

/-- C6 amended: the column definition derived for an Id field with
`PrimaryKey` set is the column name followed by TEXT NULL PRIMARY KEY,
whatever the `Nullable` flag. -/
theorem columnSQL_id_primaryKey (column : String) (nullable : Bool) (cdv : Option String) :
    columnSQL column (.id nullable true cdv) = column ++ " TEXT NULL PRIMARY KEY" := by
  cases nullable <;>
    · show column ++ " TEXT" ++ " NULL" ++ " PRIMARY KEY" = column ++ " TEXT NULL PRIMARY KEY"
      rw [strAppendAssoc, strAppendAssoc]
      exact congrArg (fun t => column ++ t) (by decide)

/-- C7 counterexample: a nullable Id field with a configured
default-value provider still returns absent on absent input —
`FieldTypeId.ValidateValue` never consults `CreateDefaultValue` — so
"returns absent only when no default is configured" fails. -/
theorem id_ignores_default_counterexample :
    validateValue goStdCompiles (.id true false (some "0123456789abcdef0123456789abcde")) none =
      Except.ok none ∧
    validateValue goStdCompiles (.id true false (some "0123456789abcdef0123456789abcde")) none ≠
      Except.ok (some (Value.str "0123456789abcdef0123456789abcde")) :=
  ⟨rfl, fun h => Option.noConfusion (Except.ok.inj h)⟩

/-- C7 amended: on absent input every nullable variant except Id returns
its configured default (invoking the provider) and absent when none is
configured; Enum additionally requires the provided default to be a
member of its value set and treats an empty-string default as no
default; Id (and SingleRelation, which delegates to Id and carries no
default) always returns absent, ignoring Id's provider. -/
theorem validate_absent_defaults (std : GoStd) :
    (∀ (nb pk : Bool) (cdv : Option String), (nb || pk) = true →
      validateValue std (.id nb pk cdv) none = Except.ok none) ∧
    (∀ (cdv : Option String) (cmax cmin : Option Int) (cpat : Option String),
      validateValue std (.text true cdv cmax cmin cpat) none = Except.ok (cdv.map Value.str)) ∧
    (∀ (cdv cmin cmax : Option Int),
      validateValue std (.int true cdv cmin cmax) none = Except.ok (cdv.map Value.int)) ∧
    (∀ (cdv cmin cmax : Option Rat),
      validateValue std (.float true cdv cmin cmax) none = Except.ok (cdv.map Value.float)) ∧
    (∀ (cdv : Option Bool),
      validateValue std (.bool true cdv) none = Except.ok (cdv.map Value.bool)) ∧
    (∀ (cdv cmin cmax : Option Int),
      validateValue std (.dateTime true cdv cmin cmax) none = Except.ok (cdv.map Value.time)) ∧
    (∀ (vs : List String) (d : String), vs.contains d = true → 0 < d.length →
      validateValue std (.enum true vs (some d)) none = Except.ok (some (Value.str d))) ∧
    (∀ (vs : List String),
      validateValue std (.enum true vs none) none = Except.ok none) ∧
    (∀ (coll : String) (cascade : Bool),
      validateValue std (.singleRelation true coll cascade) none = Except.ok none) := by
  refine ⟨?_, ?_, ?_, ?_, ?_, ?_, ?_, ?_, ?_⟩
  · intro nb pk cdv hnp
    cases nb with
    | true => rfl
    | false =>
      cases pk with
      | true => rfl
      | false => exact absurd hnp (by decide)
  · intro cdv cmax cmin cpat; cases cdv <;> rfl
  · intro cdv cmin cmax; cases cdv <;> rfl
  · intro cdv cmin cmax; cases cdv <;> rfl
  · intro cdv; cases cdv <;> rfl
  · intro cdv cmin cmax; cases cdv <;> rfl
  · intro vs d hmem hlen
    simp only [validateValue, hmem, if_true]
    show (if d.length > 0 then Except.ok (some (Value.str d)) else Except.ok none) =
      Except.ok (some (Value.str d))
    rw [if_pos hlen]
  · intro vs; rfl
  · intro coll cascade; rfl

/-- Witness for C7's amended statement at concrete inputs, discharging
the Id and Enum hypotheses. -/
theorem validate_absent_defaults_witness :
    validateValue goStdCompiles (.id true false (some "x")) none = Except.ok none ∧
    validateValue goStdCompiles (.enum true ["a", "b"] (some "b")) none =
      Except.ok (some (Value.str "b")) ∧
    validateValue goStdCompiles (.text true (some "d") none none none) none =
      Except.ok (some (Value.str "d")) :=
  ⟨(validate_absent_defaults goStdCompiles).1 true false (some "x") rfl,
   (validate_absent_defaults goStdCompiles).2.2.2.2.2.2.1 ["a", "b"] "b" (by decide) (by decide),
   (validate_absent_defaults goStdCompiles).2.1 (some "d") none none none⟩

/-- C8: the text validator does not enforce the pattern: the source
discards the boolean result of `regexp.MatchString` and errors only when
the pattern fails to compile. The string "b" does not match the
well-formed pattern "^a" yet is accepted; a malformed pattern such as
"(" is reported as a (mislabelled) pattern error on the field rather
than a panic, whatever the input. -/
theorem text_pattern_not_enforced :
    validateValue goStdCompiles (.text false none none none (some "^a")) (some (Value.str "b")) =
      Except.ok (some (Value.str "b")) ∧
    validateValue goStdMalformed (.text false none none none (some "(")) (some (Value.str "(")) =
      Except.error "value does not match pattern, pattern is (" := ⟨rfl, rfl⟩

/-- C9: `TextFieldType.ValidateValue`'s minimum-length check compares
`len(str)` against `*fieldType.MaxLength`: with MinLength 2 and
MaxLength 10 the 3-character string "abc" is wrongly rejected as too
short, and with MinLength set but MaxLength nil the check dereferences
a nil pointer. (The duplicate `FieldTypeText` validator in collection.go
implements the check correctly.) -/
theorem textFieldType_min_length_bug :
    TextFieldTypeValidateValue goStdCompiles
        { nullable := false, defaultValue := none, maxLength := some 10,
          minLength := some 2, pattern := none } (some (Value.str "abc")) =
      Except.error "value too short, min length is 2" ∧
    TextFieldTypeValidateValue goStdCompiles
        { nullable := false, defaultValue := none, maxLength := none,
          minLength := some 2, pattern := none } (some (Value.str "abcdef")) =
      Except.error "panic: runtime error: invalid memory address or nil pointer dereference" :=
  ⟨rfl, rfl⟩

/-- C10: `ValidateId` rejects every non-string input (including nil)
with the expected-string error; it neither accepts nor panics. -/
theorem validateId_rejects_nonString (v : Option Value)
    (hv : ∀ s, v ≠ some (Value.str s)) :
    ValidateId v = Except.error "invalid id, expected string value" := by
  cases v with
  | none => rfl
  | some x =>
    cases x with
    | str s => exact absurd rfl (hv s)
    | int i => rfl
    | float q => rfl
    | bool b => rfl
    | time t => rfl

/-- Witness for C10 at the concrete non-string input 5. -/
theorem validateId_rejects_nonString_witness :
    ValidateId (some (Value.int 5)) = Except.error "invalid id, expected string value" :=
  validateId_rejects_nonString (some (Value.int 5)) (fun s h => by simp at h)

end Ldb
